import Mathlib

/-!
Pendulum chain: the position-based integrator of `pendulum.c`.

A shallow embedding of `src/pendulum.c`.  The C type `f32` is a type parameter `F`
carrying only the arithmetic notation the program uses (`+ - * /`, `0`, `1`, casts of
the integer macros, `>`), and the libm functions `sqrtf`, `sinf`, `cosf` are function
parameters.  The same definitions are then read

* over the real numbers (`F = ℝ`, `sqrtf = Real.sqrt`): exact arithmetic;
* over `Chk ℝ`: exact arithmetic in which a quotient by zero is *undefined*
  (`Chk.nan`) and every operation on an undefined operand is undefined, as the C
  program's `inf`/`NaN` results are.

The fixed-size C arrays `T a[N]` are functions `Fin N → T`; an assignment
`a[i] = v` is `Function.update a i v`.
-/

namespace Pendulum

set_option linter.unusedSectionVars false

/-- Macro `#define FPS 100`. -/
abbrev FPS : Nat := 100

/-- Macro `#define N_STEPS 100`. -/
abbrev N_STEPS : Nat := 100

/-- Macro `#define N_SRC 3`. -/
abbrev N_SRC : Nat := 3

/-- Macro `#define N_DST 4`. -/
abbrev N_DST : Nat := 4

/-- The C type `typedef struct vec2 { f32 x; f32 y; } vec2;`. -/
@[ext]
structure vec2 (F : Type) where
  x : F
  y : F

/-- The C type `typedef struct pendulum { f32 masses[N_DST]; f32 lengths[N_DST]; vec2 pos[N_DST];
vec2 prev_pos[N_DST]; vec2 vel[N_DST]; } pendulum;` -/
@[ext]
structure pendulum (F : Type) where
  masses : Fin N_DST → F
  lengths : Fin N_DST → F
  pos : Fin N_DST → vec2 F
  prev_pos : Fin N_DST → vec2 F
  vel : Fin N_DST → vec2 F

/-- The C loop `for (i32 i = lo; i < n; i++) s = body i s;` run from `i = lo`.  The
index handed to the body carries the loop guard `i < n`. -/
def forLoop {S : Type} (n : Nat) (body : Fin n → S → S) (lo : Nat) (s : S) : S :=
  if h : lo < n then forLoop n body (lo + 1) (body ⟨lo, h⟩ s) else s
termination_by n - lo

section Code

variable {F : Type} [Add F] [Sub F] [Mul F] [Div F] [Zero F] [One F] [NatCast F]
  [LT F] [DecidableRel (fun a b : F => a < b)]

/-- Macro `#define DT (1.0F / FPS)`. -/
def DT : F := 1 / (FPS : F)

/-- Macro `#define SDT (DT / N_STEPS)`. -/
def SDT : F := DT / (N_STEPS : F)

/-- Function `vec2_sub`: `{a.x - b.x, a.y - b.y}` -/
def vec2_sub (a b : vec2 F) : vec2 F := ⟨a.x - b.x, a.y - b.y⟩

/-- Function `vec2_adds`: `{a.x + b.x * s, a.y + b.y * s}` -/
def vec2_adds (a b : vec2 F) (s : F) : vec2 F := ⟨a.x + b.x * s, a.y + b.y * s⟩

/-- Function `vec2_subs`: `{a.x - b.x * s, a.y - b.y * s}` -/
def vec2_subs (a b : vec2 F) (s : F) : vec2 F := ⟨a.x - b.x * s, a.y - b.y * s⟩

/-- Function `vec2_dot`: `a.x * b.x + a.y * b.y` -/
def vec2_dot (a b : vec2 F) : F := a.x * b.x + a.y * b.y

/-- Function `vec2_divs`: `{a.x / b, a.y / b}` -/
def vec2_divs (a : vec2 F) (b : F) : vec2 F := ⟨a.x / b, a.y / b⟩

/-- Function `vec2_len`: `sqrtf(vec2_dot(a, a))` -/
def vec2_len (sqrtf : F → F) (a : vec2 F) : F := sqrtf (vec2_dot a a)

/-- The zero-initialised `static pendulum pnd;`. -/
def pnd_zero : pendulum F :=
  { masses := fun _ => 0, lengths := fun _ => 0, pos := fun _ => ⟨0, 0⟩,
    prev_pos := fun _ => ⟨0, 0⟩, vel := fun _ => ⟨0, 0⟩ }

/-- Body of the loop of `sim_init` (lines 72-78); the loop state is `pnd` together with
the local accumulator `v`.  `masses`, `lengths`, `angles` are the source arrays. -/
def sim_init_body (sinf cosf : F → F) (masses lengths angles : Fin N_SRC → F)
    (i : Fin N_SRC) (s : pendulum F × vec2 F) : pendulum F × vec2 F :=
  let pnd := s.1
  let v := s.2
  let pnd := { pnd with masses := Function.update pnd.masses i.succ (masses i) }
  let pnd := { pnd with lengths := Function.update pnd.lengths i.succ (lengths i) }
  let v := { v with x := v.x + lengths i * sinf (angles i) }
  let v := { v with y := v.y - lengths i * cosf (angles i) }
  let pnd := { pnd with pos := Function.update pnd.pos i.succ v }
  let pnd := { pnd with prev_pos := Function.update pnd.prev_pos i.succ v }
  let pnd := { pnd with vel := Function.update pnd.vel i.succ ⟨0, 0⟩ }
  (pnd, v)

/-- Function `sim_init` (lines 64-80), for arbitrary contents of the three source arrays. -/
def sim_init (sinf cosf : F → F) (masses lengths angles : Fin N_SRC → F) : pendulum F :=
  let pnd : pendulum F := pnd_zero
  let pnd := { pnd with masses := Function.update pnd.masses 0 0 }
  let pnd := { pnd with lengths := Function.update pnd.lengths 0 0 }
  let pnd := { pnd with pos := Function.update pnd.pos 0 ⟨0, 0⟩ }
  let pnd := { pnd with prev_pos := Function.update pnd.prev_pos 0 ⟨0, 0⟩ }
  let pnd := { pnd with vel := Function.update pnd.vel 0 ⟨0, 0⟩ }
  let v : vec2 F := ⟨0, 0⟩
  (forLoop N_SRC (sim_init_body sinf cosf masses lengths angles) 0 (pnd, v)).1

/-- The predecessor index `i - 1` of a chain index. -/
def prev_idx (i : Fin N_DST) : Fin N_DST := ⟨i.val - 1, by have := i.isLt; omega⟩

/-- Body of the first loop of `sim_update` (lines 84-86), Pass A. -/
def integrate_body (gravity : F) (i : Fin N_DST) (pnd : pendulum F) : pendulum F :=
  let vi : vec2 F := ⟨(pnd.vel i).x, (pnd.vel i).y + SDT * gravity⟩
  let pnd := { pnd with vel := Function.update pnd.vel i vi }
  let pnd := { pnd with prev_pos := Function.update pnd.prev_pos i (pnd.pos i) }
  { pnd with pos := Function.update pnd.pos i (vec2_adds (pnd.pos i) (pnd.vel i) SDT) }

/-- The inverse masses `w0`/`w1` of lines 91-92: `m > 0.0f ? 1.0f / m : 0.0f`. -/
def inv_mass (m : F) : F := if 0 < m then 1 / m else 0

/-- The value `ds` of line 90 for constraint `i`: the current distance of bodies `i-1` and `i`. -/
def constraint_ds (sqrtf : F → F) (i : Fin N_DST) (pnd : pendulum F) : F :=
  vec2_len sqrtf (vec2_sub (pnd.pos i) (pnd.pos (prev_idx i)))

/-- The divisor `ds * (w0 + w1)` of line 93 for constraint `i`. -/
def constraint_divisor (sqrtf : F → F) (i : Fin N_DST) (pnd : pendulum F) : F :=
  constraint_ds sqrtf i pnd *
    (inv_mass (pnd.masses (prev_idx i)) + inv_mass (pnd.masses i))

/-- Body of the second loop of `sim_update` (lines 89-95), Pass B: one constraint
projection. -/
def constraint_body (sqrtf : F → F) (i : Fin N_DST) (pnd : pendulum F) : pendulum F :=
  let dv := vec2_sub (pnd.pos i) (pnd.pos (prev_idx i))
  let ds := vec2_len sqrtf dv
  let w0 := inv_mass (pnd.masses (prev_idx i))
  let w1 := inv_mass (pnd.masses i)
  let corr := (pnd.lengths i - ds) / (ds * (w0 + w1))
  let p0 := vec2_subs (pnd.pos (prev_idx i)) dv (w0 * corr)
  let pnd := { pnd with pos := Function.update pnd.pos (prev_idx i) p0 }
  { pnd with pos := Function.update pnd.pos i (vec2_adds (pnd.pos i) dv (w1 * corr)) }

/-- Body of the third loop of `sim_update` (lines 98-99), Pass C. -/
def velocity_body (i : Fin N_DST) (pnd : pendulum F) : pendulum F :=
  let d := vec2_sub (pnd.pos i) (pnd.prev_pos i)
  let pnd := { pnd with vel := Function.update pnd.vel i d }
  { pnd with vel := Function.update pnd.vel i (vec2_divs (pnd.vel i) SDT) }

/-- Function `sim_update` (lines 82-101): the three loops, each over `i = 1 .. N_DST-1`. -/
def sim_update (sqrtf : F → F) (gravity : F) (pnd : pendulum F) : pendulum F :=
  let pnd := forLoop N_DST (integrate_body gravity) 1 pnd
  let pnd := forLoop N_DST (constraint_body sqrtf) 1 pnd
  forLoop N_DST velocity_body 1 pnd

/-- What one `printf` call of the program writes: the literal header text, or the
arguments of the format `"%d,%f,%f,%f\n"` (frame, x, y, mass). -/
inductive out_line (F : Type) where
  | text : String → out_line F
  | row : Int → F → F → F → out_line F

/-- Function `print_sim` (lines 103-106): appends one row per body, `i = 0 .. N_DST-1`. -/
def print_sim (f : Int) (pnd : pendulum F) (out : List (out_line F)) : List (out_line F) :=
  forLoop N_DST
    (fun i o => o ++ [out_line.row f (pnd.pos i).x (pnd.pos i).y (pnd.masses i)]) 0 out

/-- Body of the frame loop of `main` (lines 131-133); the loop state is the output
written so far together with `pnd`. -/
def main_body (sqrtf : F → F) (gravity : F) (f : Fin (10 * FPS))
    (s : List (out_line F) × pendulum F) : List (out_line F) × pendulum F :=
  let out := print_sim (f.val : Int) s.2 s.1
  let pnd := forLoop N_STEPS (fun _ p => sim_update sqrtf gravity p) 0 s.2
  (out, pnd)

/-- Lines 127-135 of `main`: everything written to `stdout` on the path where the
argument handling succeeded.  After the frame loop `f` equals `10 * FPS`. -/
def main_output (sqrtf sinf cosf : F → F) (gravity : F)
    (masses lengths angles : Fin N_SRC → F) : List (out_line F) :=
  let pnd := sim_init sinf cosf masses lengths angles
  let out : List (out_line F) := [out_line.text "f,x,y,m\n"]
  let s := forLoop (10 * FPS) (main_body sqrtf gravity) 0 (out, pnd)
  print_sim ((10 * FPS : Nat) : Int) s.2 s.1

end Code

section Globals

variable {F : Type} [Div F] [Neg F] [NatCast F] [OfScientific F]

/-- Global `static f32 gravity = -10.0F;`. -/
def gravity : F := -10.0

/-- Global `static f32 lengths[N_SRC] = {0.2f, 0.2f, 0.2f};`. -/
def lengths : Fin N_SRC → F := ![0.2, 0.2, 0.2]

/-- Global `static f32 masses[N_SRC] = {1.0f, 0.5f, 0.3f};`. -/
def masses : Fin N_SRC → F := ![1.0, 0.5, 0.3]

/-- Global `static f32 angles[N_SRC] = {M_PI_2, M_PI, M_PI};` where the math.h constants are
`M_PI = pi` and `M_PI_2 = pi / 2` for the parameter `pi`. -/
def angles (pi : F) : Fin N_SRC → F := ![pi / ((2 : Nat) : F), pi, pi]

end Globals

/-! Arithmetic with undefined results. -/

/-- A number, or the undefined result `nan` of a quotient by zero (the C program gets
`inf` or `NaN` there) and of anything computed from an undefined operand. -/
inductive Chk (F : Type) where
  | nan : Chk F
  | fin : F → Chk F

namespace Chk

variable {F : Type}

/-- Lift a binary operation; undefined as soon as an operand is. -/
def map₂ (f : F → F → F) : Chk F → Chk F → Chk F
  | fin a, fin b => fin (f a b)
  | _, _ => nan

/-- Lift a unary function (`sinf`, `cosf`); undefined on an undefined argument. -/
def map (f : F → F) : Chk F → Chk F
  | fin a => fin (f a)
  | nan => nan

/-- Quotient: undefined when the divisor is zero. -/
def div [Div F] [Zero F] [DecidableEq F] : Chk F → Chk F → Chk F
  | fin a, fin b => if b = 0 then nan else fin (a / b)
  | _, _ => nan

/-- Comparison `a < b`: false as soon as an operand is undefined. -/
def lt [LT F] : Chk F → Chk F → Prop
  | fin a, fin b => a < b
  | _, _ => False

/-- Square root `sqrtf`: undefined on a negative or undefined argument. -/
def sqrt [LT F] [Zero F] [DecidableRel (fun a b : F => a < b)] (f : F → F) : Chk F → Chk F
  | fin a => if a < 0 then nan else fin (f a)
  | nan => nan

instance [Add F] : Add (Chk F) := ⟨map₂ (fun a b => a + b)⟩

instance [Sub F] : Sub (Chk F) := ⟨map₂ (fun a b => a - b)⟩

instance [Mul F] : Mul (Chk F) := ⟨map₂ (fun a b => a * b)⟩

instance [Div F] [Zero F] [DecidableEq F] : Div (Chk F) := ⟨div⟩

instance [Zero F] : Zero (Chk F) := ⟨fin 0⟩

instance [One F] : One (Chk F) := ⟨fin 1⟩

instance [NatCast F] : NatCast (Chk F) := ⟨fun n => fin (n : F)⟩

instance [LT F] : LT (Chk F) := ⟨lt⟩

instance decLt [LT F] [DecidableRel (fun a b : F => a < b)] :
    DecidableRel (fun a b : Chk F => a < b)
  | fin a, fin b => inferInstanceAs (Decidable (a < b))
  | nan, _ => isFalse (fun h => h)
  | fin _, nan => isFalse (fun h => h)

end Chk

/-- Componentwise image of a vector. -/
def vec2.map {F G : Type} (f : F → G) (a : vec2 F) : vec2 G := ⟨f a.x, f a.y⟩

/-- Componentwise image of a chain state. -/
def pendulum.map {F G : Type} (f : F → G) (p : pendulum F) : pendulum G :=
  { masses := fun i => f (p.masses i), lengths := fun i => f (p.lengths i),
    pos := fun i => (p.pos i).map f, prev_pos := fun i => (p.prev_pos i).map f,
    vel := fun i => (p.vel i).map f }

/-- A chain state of defined numbers, read in the arithmetic with undefined results. -/
def pendulum.chk {F : Type} (p : pendulum F) : pendulum (Chk F) := p.map Chk.fin

/-- Test data: a chain at rest on the x axis, bodies 0, 1, 2 at `x = 0, 1, 2` and the last
body at `x = t`; unit rods, unit movable masses, pinned pivot, zero velocities. -/
def chain_x {F : Type} [Zero F] [One F] [NatCast F] (t : F) : pendulum F :=
  { masses := fun i => if i = 0 then 0 else 1,
    lengths := fun i => if i = 0 then 0 else 1,
    pos := fun i => ⟨if i = 3 then t else (i.val : F), 0⟩,
    prev_pos := fun i => ⟨if i = 3 then t else (i.val : F), 0⟩,
    vel := fun _ => ⟨0, 0⟩ }

open Chk

/-! Lemmas about the loops, the three passes, the initializer and the driver. -/

theorem forLoop_ge {S : Type} (n : Nat) (body : Fin n → S → S) (lo : Nat) (s : S) (h : n ≤ lo) :
    forLoop n body lo s = s := by
  rw [forLoop, dif_neg (by omega)]

theorem forLoop_lt {S : Type} (n : Nat) (body : Fin n → S → S) (lo : Nat) (s : S) (h : lo < n) :
    forLoop n body lo s = forLoop n body (lo + 1) (body ⟨lo, h⟩ s) := by
  rw [forLoop, dif_pos h]

/-- Loop-invariant rule for `forLoop`. -/
theorem forLoop_invariant {S : Type} (n : Nat) (body : Fin n → S → S) (P : Nat → S → Prop)
    (hstep : ∀ (i : Nat) (h : i < n) (s : S), P i s → P (i + 1) (body ⟨i, h⟩ s)) :
    ∀ (d lo : Nat) (s : S), n - lo = d → lo ≤ n → P lo s → P n (forLoop n body lo s) := by
  intro d
  induction d with
  | zero =>
    intro lo s hd hle h0
    have : lo = n := by omega
    subst this
    rw [forLoop_ge _ _ _ _ (le_refl _)]
    exact h0
  | succ d ih =>
    intro lo s hd hle h0
    have hlt : lo < n := by omega
    rw [forLoop_lt _ _ _ _ hlt]
    exact ih (lo + 1) _ (by omega) (by omega) (hstep lo hlt s h0)

theorem forLoop_const {S : Type} (n : Nat) (f : S → S) (s : S) :
    forLoop n (fun _ p => f p) 0 s = f^[n] s := by
  have h := forLoop_invariant n (fun _ p => f p) (fun i t => t = f^[i] s)
    (by
      intro i _ t ht
      rw [ht, Function.iterate_succ_apply']) n 0 s (by omega) (by omega) rfl
  exact h

theorem idx_ne :
    (0 : Fin N_DST) ≠ 1 ∧ (0 : Fin N_DST) ≠ 2 ∧ (0 : Fin N_DST) ≠ 3 ∧
    (1 : Fin N_DST) ≠ 0 ∧ (1 : Fin N_DST) ≠ 2 ∧ (1 : Fin N_DST) ≠ 3 ∧
    (2 : Fin N_DST) ≠ 0 ∧ (2 : Fin N_DST) ≠ 1 ∧ (2 : Fin N_DST) ≠ 3 ∧
    (3 : Fin N_DST) ≠ 0 ∧ (3 : Fin N_DST) ≠ 1 ∧ (3 : Fin N_DST) ≠ 2 := by decide

theorem prev_idx_lit :
    prev_idx 1 = 0 ∧ prev_idx 2 = 1 ∧ prev_idx 3 = 2 := by decide

theorem succ_cases (i : Fin N_SRC) :
    (i = 0 ∧ i.succ = 1) ∨ (i = 1 ∧ i.succ = 2) ∨ (i = 2 ∧ i.succ = 3) := by
  revert i; decide

section

variable {F : Type} [Add F] [Sub F] [Mul F] [Div F] [Zero F] [One F] [NatCast F]
  [LT F] [DecidableRel (fun a b : F => a < b)]

theorem sim_update_eq (sqrtf : F → F) (g : F) (p : pendulum F) :
    sim_update sqrtf g p =
      velocity_body 3 (velocity_body 2 (velocity_body 1
        (constraint_body sqrtf 3 (constraint_body sqrtf 2 (constraint_body sqrtf 1
          (integrate_body g 3 (integrate_body g 2 (integrate_body g 1 p)))))))) := by
  unfold sim_update
  simp only [forLoop_lt _ _ 1 _ (by decide : 1 < N_DST),
    forLoop_lt _ _ 2 _ (by decide : 2 < N_DST), forLoop_lt _ _ 3 _ (by decide : 3 < N_DST),
    forLoop_ge _ _ 4 _ (le_refl _)]
  rfl

theorem print_sim_eq (f : Int) (p : pendulum F) (out : List (out_line F)) :
    print_sim f p out = out ++
      [out_line.row f (p.pos 0).x (p.pos 0).y (p.masses 0),
       out_line.row f (p.pos 1).x (p.pos 1).y (p.masses 1),
       out_line.row f (p.pos 2).x (p.pos 2).y (p.masses 2),
       out_line.row f (p.pos 3).x (p.pos 3).y (p.masses 3)] := by
  unfold print_sim
  simp only [forLoop_lt _ _ 0 _ (by decide : 0 < N_DST),
    forLoop_lt _ _ 1 _ (by decide : 1 < N_DST), forLoop_lt _ _ 2 _ (by decide : 2 < N_DST),
    forLoop_lt _ _ 3 _ (by decide : 3 < N_DST), forLoop_ge _ _ 4 _ (le_refl _),
    List.append_assoc]
  rfl

theorem main_loop_eq (sqrtf : F → F) (g : F) (out : List (out_line F)) (p : pendulum F) :
    forLoop (10 * FPS) (main_body sqrtf g) 0 (out, p) =
      (out ++ (List.range (10 * FPS)).flatMap
          (fun k => print_sim (k : Int) ((sim_update sqrtf g)^[N_STEPS * k] p) []),
        (sim_update sqrtf g)^[N_STEPS * (10 * FPS)] p) := by
  have h := forLoop_invariant (10 * FPS) (main_body sqrtf g)
    (fun i s => s = (out ++ (List.range i).flatMap
          (fun k => print_sim (k : Int) ((sim_update sqrtf g)^[N_STEPS * k] p) []),
        (sim_update sqrtf g)^[N_STEPS * i] p))
    (by
      intro i hi s hs
      rw [hs]
      simp only [main_body, print_sim_eq, forLoop_const, List.range_succ, List.flatMap_append,
        List.flatMap_singleton, List.append_assoc, List.nil_append, Nat.mul_succ]
      rw [Nat.add_comm (N_STEPS * i) N_STEPS, Function.iterate_add_apply])
    (10 * FPS) 0 (out, p) (by omega) (by omega) (by simp)
  exact h

theorem main_output_shape (sqrtf sinf cosf : F → F) (g : F) (m l a : Fin N_SRC → F) :
    main_output sqrtf sinf cosf g m l a =
      out_line.text "f,x,y,m\n" ::
        (List.range (10 * FPS + 1)).flatMap (fun k =>
          print_sim (k : Int)
            ((sim_update sqrtf g)^[N_STEPS * k] (sim_init sinf cosf m l a)) []) := by
  unfold main_output
  simp only [main_loop_eq]
  rw [print_sim_eq, List.range_succ, List.flatMap_append]
  simp [print_sim_eq]

theorem integrate_body_pos (g : F) (i : Fin N_DST) (p : pendulum F) :
    (integrate_body g i p).pos = Function.update p.pos i
      (vec2_adds (p.pos i) ⟨(p.vel i).x, (p.vel i).y + SDT * g⟩ SDT) := by
  simp [integrate_body]

theorem integrate_body_prev_pos (g : F) (i : Fin N_DST) (p : pendulum F) :
    (integrate_body g i p).prev_pos = Function.update p.prev_pos i (p.pos i) := rfl

theorem integrate_body_vel (g : F) (i : Fin N_DST) (p : pendulum F) :
    (integrate_body g i p).vel = Function.update p.vel i
      ⟨(p.vel i).x, (p.vel i).y + SDT * g⟩ := rfl

theorem constraint_body_masses (sqrtf : F → F) (i : Fin N_DST) (p : pendulum F) :
    (constraint_body sqrtf i p).masses = p.masses := rfl

theorem constraint_body_lengths (sqrtf : F → F) (i : Fin N_DST) (p : pendulum F) :
    (constraint_body sqrtf i p).lengths = p.lengths := rfl

theorem constraint_body_prev_pos (sqrtf : F → F) (i : Fin N_DST) (p : pendulum F) :
    (constraint_body sqrtf i p).prev_pos = p.prev_pos := rfl

theorem constraint_body_vel (sqrtf : F → F) (i : Fin N_DST) (p : pendulum F) :
    (constraint_body sqrtf i p).vel = p.vel := rfl

theorem velocity_body_masses (i : Fin N_DST) (p : pendulum F) :
    (velocity_body i p).masses = p.masses := rfl

theorem velocity_body_lengths (i : Fin N_DST) (p : pendulum F) :
    (velocity_body i p).lengths = p.lengths := rfl

theorem velocity_body_pos (i : Fin N_DST) (p : pendulum F) :
    (velocity_body i p).pos = p.pos := rfl

theorem velocity_body_prev_pos (i : Fin N_DST) (p : pendulum F) :
    (velocity_body i p).prev_pos = p.prev_pos := rfl

theorem velocity_body_vel (i : Fin N_DST) (p : pendulum F) :
    (velocity_body i p).vel = Function.update p.vel i
      (vec2_divs (vec2_sub (p.pos i) (p.prev_pos i)) SDT) := by
  simp [velocity_body]

theorem sim_update_masses (sqrtf : F → F) (g : F) (p : pendulum F) :
    (sim_update sqrtf g p).masses = p.masses := by
  rw [sim_update_eq]; rfl

theorem sim_update_lengths (sqrtf : F → F) (g : F) (p : pendulum F) :
    (sim_update sqrtf g p).lengths = p.lengths := by
  rw [sim_update_eq]; rfl

theorem sim_update_pos (sqrtf : F → F) (g : F) (p : pendulum F) :
    (sim_update sqrtf g p).pos =
      (constraint_body sqrtf 3 (constraint_body sqrtf 2 (constraint_body sqrtf 1
          (integrate_body g 3 (integrate_body g 2 (integrate_body g 1 p)))))).pos := by
  rw [sim_update_eq]; rfl

theorem sim_update_prev_pos (sqrtf : F → F) (g : F) (p : pendulum F) :
    (sim_update sqrtf g p).prev_pos =
      Function.update (Function.update (Function.update p.prev_pos 1 (p.pos 1)) 2 (p.pos 2))
        3 (p.pos 3) := by
  rw [sim_update_eq]
  simp only [velocity_body_prev_pos, constraint_body_prev_pos, integrate_body_prev_pos,
    integrate_body_pos]
  simp [idx_ne]

theorem sim_update_vel (sqrtf : F → F) (g : F) (p : pendulum F) (i : Fin N_SRC) :
    (sim_update sqrtf g p).vel i.succ =
      vec2_divs (vec2_sub ((sim_update sqrtf g p).pos i.succ)
        ((sim_update sqrtf g p).prev_pos i.succ)) SDT := by
  rw [sim_update_prev_pos, sim_update_pos, sim_update_eq]
  simp only [velocity_body_vel, velocity_body_pos, velocity_body_prev_pos,
    constraint_body_prev_pos, integrate_body_prev_pos, integrate_body_pos]
  rcases succ_cases i with h | h | h <;> rw [h.2] <;> simp [idx_ne]

theorem sim_update_vel_zero (sqrtf : F → F) (g : F) (p : pendulum F) :
    (sim_update sqrtf g p).vel 0 = p.vel 0 := by
  rw [sim_update_eq]
  simp only [velocity_body_vel, constraint_body_vel, integrate_body_vel]
  simp [idx_ne]

theorem sim_init_eq (sinf cosf : F → F) (m l a : Fin N_SRC → F) :
    sim_init sinf cosf m l a =
      (sim_init_body sinf cosf m l a 2 (sim_init_body sinf cosf m l a 1
        (sim_init_body sinf cosf m l a 0
          ({ masses := fun _ => 0, lengths := fun _ => 0, pos := fun _ => ⟨0, 0⟩,
             prev_pos := fun _ => ⟨0, 0⟩, vel := fun _ => ⟨0, 0⟩ }, ⟨0, 0⟩)))).1 := by
  unfold sim_init
  simp only [forLoop_lt _ _ 0 _ (by decide : 0 < N_SRC),
    forLoop_lt _ _ 1 _ (by decide : 1 < N_SRC), forLoop_lt _ _ 2 _ (by decide : 2 < N_SRC),
    forLoop_ge _ _ 3 _ (le_refl _), pnd_zero]
  congr 4
  simp

end

namespace Chk

variable {F : Type}

theorem fin_add_fin [Add F] (a b : F) : (fin a + fin b : Chk F) = fin (a + b) := rfl

theorem fin_sub_fin [Sub F] (a b : F) : (fin a - fin b : Chk F) = fin (a - b) := rfl

theorem fin_mul_fin [Mul F] (a b : F) : (fin a * fin b : Chk F) = fin (a * b) := rfl

theorem fin_div_fin [Div F] [Zero F] [DecidableEq F] (a b : F) :
    (fin a / fin b : Chk F) = if b = 0 then nan else fin (a / b) := rfl

theorem nan_add [Add F] (a : Chk F) : nan + a = nan := by cases a <;> rfl

theorem add_nan [Add F] (a : Chk F) : a + nan = nan := by cases a <;> rfl

theorem sub_nan [Sub F] (a : Chk F) : a - nan = nan := by cases a <;> rfl

theorem mul_nan [Mul F] (a : Chk F) : a * nan = nan := by cases a <;> rfl

theorem zero_eq [Zero F] : (0 : Chk F) = fin 0 := rfl

theorem one_eq [One F] : (1 : Chk F) = fin 1 := rfl

theorem natCast_eq [NatCast F] (n : Nat) : ((n : Nat) : Chk F) = fin (n : F) := rfl

theorem fin_lt_fin [LT F] (a b : F) : (fin a < fin b) ↔ a < b := Iff.rfl

theorem sqrt_fin [LT F] [Zero F] [DecidableRel (fun a b : F => a < b)] (f : F → F) (a : F) :
    Chk.sqrt f (fin a) = if a < 0 then nan else fin (f a) := rfl

end Chk

theorem inv_mass_chk (m : ℝ) : inv_mass (fin m : Chk ℝ) = fin (inv_mass m) := by
  unfold inv_mass
  by_cases h : 0 < m
  · have hne : m ≠ 0 := ne_of_gt h
    simp [Chk.zero_eq, Chk.one_eq, Chk.fin_lt_fin, Chk.fin_div_fin, h, hne]
  · simp [Chk.zero_eq, Chk.fin_lt_fin, h]

theorem inv_mass_nonneg (m : ℝ) : 0 ≤ inv_mass m := by
  unfold inv_mass
  split_ifs with h
  · positivity
  · exact le_refl 0

theorem inv_mass_pos (m : ℝ) (h : 0 < m) : 0 < inv_mass m := by
  unfold inv_mass
  rw [if_pos h]
  positivity

theorem prev_idx_ne (i : Fin N_DST) (hi : i ≠ 0) : prev_idx i ≠ i := by
  revert i; decide

section

variable {F : Type} [Add F] [Sub F] [Mul F] [Div F] [Zero F] [One F] [NatCast F]
  [LT F] [DecidableRel (fun a b : F => a < b)]

theorem constraint_body_pos (sqrtf : F → F) (i : Fin N_DST) (hi : i ≠ 0) (p : pendulum F) :
    (constraint_body sqrtf i p).pos =
      Function.update (Function.update p.pos (prev_idx i)
        (vec2_subs (p.pos (prev_idx i)) (vec2_sub (p.pos i) (p.pos (prev_idx i)))
          (inv_mass (p.masses (prev_idx i)) *
            ((p.lengths i - constraint_ds sqrtf i p) / constraint_divisor sqrtf i p))))
        i (vec2_adds (p.pos i) (vec2_sub (p.pos i) (p.pos (prev_idx i)))
          (inv_mass (p.masses i) *
            ((p.lengths i - constraint_ds sqrtf i p) / constraint_divisor sqrtf i p))) := by
  simp [constraint_body, constraint_ds, constraint_divisor,
    Function.update_noteq (prev_idx_ne i hi).symm]

end

/-- Sum of squares under the real square root is never negative. -/
theorem sumsq_nonneg (u v : ℝ) : ¬ (u * u + v * v < 0) := by
  have h1 := mul_self_nonneg u
  have h2 := mul_self_nonneg v
  linarith

theorem constraint_ds_chk_fin (s : pendulum (Chk ℝ)) (i : Fin N_DST) (a b c e : ℝ)
    (hpi : s.pos i = ⟨fin a, fin b⟩) (hpj : s.pos (prev_idx i) = ⟨fin c, fin e⟩) :
    constraint_ds (Chk.sqrt Real.sqrt) i s =
      fin (Real.sqrt ((a - c) * (a - c) + (b - e) * (b - e))) := by
  simp [constraint_ds, vec2_len, vec2_dot, vec2_sub, hpi, hpj, Chk.fin_sub_fin, Chk.fin_mul_fin,
    Chk.fin_add_fin, Chk.sqrt_fin, sumsq_nonneg]

theorem constraint_body_chk_pos (s : pendulum (Chk ℝ)) (i : Fin N_DST) (hi : i ≠ 0)
    (a b c e l w0 w1 : ℝ)
    (hpi : s.pos i = ⟨fin a, fin b⟩) (hpj : s.pos (prev_idx i) = ⟨fin c, fin e⟩)
    (hl : s.lengths i = fin l)
    (hw0 : inv_mass (s.masses (prev_idx i)) = fin w0) (hw1 : inv_mass (s.masses i) = fin w1)
    (hdiv : Real.sqrt ((a - c) * (a - c) + (b - e) * (b - e)) * (w0 + w1) ≠ 0) :
    (constraint_body (Chk.sqrt Real.sqrt) i s).pos =
      Function.update (Function.update s.pos (prev_idx i)
        ⟨fin (c - (a - c) * (w0 * ((l - Real.sqrt ((a - c) * (a - c) + (b - e) * (b - e))) /
            (Real.sqrt ((a - c) * (a - c) + (b - e) * (b - e)) * (w0 + w1))))),
         fin (e - (b - e) * (w0 * ((l - Real.sqrt ((a - c) * (a - c) + (b - e) * (b - e))) /
            (Real.sqrt ((a - c) * (a - c) + (b - e) * (b - e)) * (w0 + w1)))))⟩)
        i
        ⟨fin (a + (a - c) * (w1 * ((l - Real.sqrt ((a - c) * (a - c) + (b - e) * (b - e))) /
            (Real.sqrt ((a - c) * (a - c) + (b - e) * (b - e)) * (w0 + w1))))),
         fin (b + (b - e) * (w1 * ((l - Real.sqrt ((a - c) * (a - c) + (b - e) * (b - e))) /
            (Real.sqrt ((a - c) * (a - c) + (b - e) * (b - e)) * (w0 + w1)))))⟩ := by
  rw [constraint_body_pos _ i hi, constraint_divisor, constraint_ds_chk_fin s i a b c e hpi hpj,
    hpi, hpj, hl, hw0, hw1]
  simp only [vec2_subs, vec2_adds, vec2_sub, Chk.fin_sub_fin, Chk.fin_mul_fin, Chk.fin_add_fin,
    Chk.fin_div_fin, if_neg hdiv]

theorem chk_pos (r : pendulum ℝ) (i : Fin N_DST) :
    r.chk.pos i = ⟨fin (r.pos i).x, fin (r.pos i).y⟩ := rfl

theorem chk_update_vec (a : Fin N_DST → vec2 ℝ) (i : Fin N_DST) (v : vec2 ℝ) :
    Function.update (fun k => (a k).map (Chk.fin)) i (v.map Chk.fin) =
      fun k => (Function.update a i v k).map Chk.fin := by
  funext k
  by_cases h : k = i
  · subst h; simp
  · simp [Function.update_noteq h]

theorem chk_constraint_body (i : Fin N_DST) (hi : i ≠ 0) (r : pendulum ℝ)
    (hdiv : constraint_divisor Real.sqrt i r ≠ 0) :
    constraint_body (Chk.sqrt Real.sqrt) i r.chk = (constraint_body Real.sqrt i r).chk := by
  ext1
  · rfl
  · rfl
  · rw [constraint_body_chk_pos r.chk i hi (r.pos i).x (r.pos i).y (r.pos (prev_idx i)).x
      (r.pos (prev_idx i)).y (r.lengths i) (inv_mass (r.masses (prev_idx i)))
      (inv_mass (r.masses i)) rfl rfl rfl (inv_mass_chk _) (inv_mass_chk _) hdiv]
    simp only [pendulum.chk, pendulum.map, constraint_body_pos _ i hi, ← chk_update_vec]
    rfl
  · rfl
  · rfl

theorem succ_lit :
    (0 : Fin N_SRC).succ = (1 : Fin N_DST) ∧ (1 : Fin N_SRC).succ = (2 : Fin N_DST) ∧
    (2 : Fin N_SRC).succ = (3 : Fin N_DST) := by decide

section

variable {F : Type} [Add F] [Sub F] [Mul F] [Div F] [Zero F] [One F] [NatCast F]
  [LT F] [DecidableRel (fun a b : F => a < b)]

theorem sim_init_masses (sinf cosf : F → F) (m l a : Fin N_SRC → F) :
    (sim_init sinf cosf m l a).masses 0 = 0 ∧ (sim_init sinf cosf m l a).masses 1 = m 0 ∧
    (sim_init sinf cosf m l a).masses 2 = m 1 ∧ (sim_init sinf cosf m l a).masses 3 = m 2 := by
  rw [sim_init_eq]
  simp [sim_init_body, idx_ne, succ_lit]

theorem sim_init_lengths (sinf cosf : F → F) (m l a : Fin N_SRC → F) :
    (sim_init sinf cosf m l a).lengths 0 = 0 ∧ (sim_init sinf cosf m l a).lengths 1 = l 0 ∧
    (sim_init sinf cosf m l a).lengths 2 = l 1 ∧ (sim_init sinf cosf m l a).lengths 3 = l 2 := by
  rw [sim_init_eq]
  simp [sim_init_body, idx_ne, succ_lit]

theorem sim_init_pos (sinf cosf : F → F) (m l a : Fin N_SRC → F) :
    (sim_init sinf cosf m l a).pos 0 = ⟨0, 0⟩ ∧
    (sim_init sinf cosf m l a).pos 1 = ⟨0 + l 0 * sinf (a 0), 0 - l 0 * cosf (a 0)⟩ ∧
    (sim_init sinf cosf m l a).pos 2 =
      ⟨0 + l 0 * sinf (a 0) + l 1 * sinf (a 1), 0 - l 0 * cosf (a 0) - l 1 * cosf (a 1)⟩ ∧
    (sim_init sinf cosf m l a).pos 3 =
      ⟨0 + l 0 * sinf (a 0) + l 1 * sinf (a 1) + l 2 * sinf (a 2),
       0 - l 0 * cosf (a 0) - l 1 * cosf (a 1) - l 2 * cosf (a 2)⟩ := by
  rw [sim_init_eq]
  simp [sim_init_body, idx_ne, succ_lit]

theorem sim_init_prev_pos (sinf cosf : F → F) (m l a : Fin N_SRC → F) :
    (sim_init sinf cosf m l a).prev_pos = (sim_init sinf cosf m l a).pos := by
  rw [sim_init_eq]
  simp [sim_init_body, idx_ne, succ_lit]

theorem sim_init_vel (sinf cosf : F → F) (m l a : Fin N_SRC → F) (i : Fin N_DST) :
    (sim_init sinf cosf m l a).vel i = ⟨0, 0⟩ := by
  rw [sim_init_eq]
  rcases (by revert i; decide : i = 0 ∨ i = 1 ∨ i = 2 ∨ i = 3) with h | h | h | h <;>
    rw [h] <;> simp [sim_init_body, idx_ne, succ_lit]

end

section

variable {F : Type} [Add F] [Sub F] [Mul F] [Div F] [Zero F] [One F] [NatCast F]
  [LT F] [DecidableRel (fun a b : F => a < b)]

end

theorem flatMap_block_getElem {α : Type} (f : Nat → List α) (c : Nat)
    (hlen : ∀ k, (f k).length = c) (n k j : Nat) (hk : k < n) (hj : j < c) :
    ((List.range n).flatMap f)[c * k + j]? = (f k)[j]? := by
  have hlenall : ∀ n, ((List.range n).flatMap f).length = c * n := by
    intro n
    induction n with
    | zero => simp
    | succ n ih => simp [List.range_succ, List.flatMap_append, ih, hlen, Nat.mul_succ]
  induction n with
  | zero => omega
  | succ n ih =>
    rw [List.range_succ, List.flatMap_append]
    by_cases hkn : k < n
    · rw [List.getElem?_append_left, ih hkn]
      rw [hlenall]
      calc c * k + j < c * k + c := by omega
        _ = c * (k + 1) := by ring
        _ ≤ c * n := Nat.mul_le_mul_left c hkn
    · have hkeq : k = n := by omega
      subst hkeq
      rw [List.getElem?_append_right (by rw [hlenall]; omega), hlenall]
      simp

section

variable {F : Type} [Add F] [Sub F] [Mul F] [Div F] [Zero F] [One F] [NatCast F]
  [LT F] [DecidableRel (fun a b : F => a < b)]

end

theorem divisor_ne_zero (s : pendulum ℝ) (i : Fin N_DST) (hm : 0 < s.masses i)
    (hd : constraint_ds Real.sqrt i s ≠ 0) : constraint_divisor Real.sqrt i s ≠ 0 := by
  unfold constraint_divisor
  apply mul_ne_zero hd
  have hw0 := inv_mass_nonneg (s.masses (prev_idx i))
  have hw1 := inv_mass_pos (s.masses i) hm
  exact ne_of_gt (by linarith)

theorem val_lit :
    (0 : Fin N_DST).val = 0 ∧ (1 : Fin N_DST).val = 1 ∧ (2 : Fin N_DST).val = 2 ∧
    (3 : Fin N_DST).val = 3 := by decide

theorem idx_all (i : Fin N_DST) : i = 0 ∨ i = 1 ∨ i = 2 ∨ i = 3 := by
  revert i; decide

theorem chain_ds (t : ℝ) :
    constraint_ds Real.sqrt 1 (chain_x t) = 1 ∧ constraint_ds Real.sqrt 2 (chain_x t) = 1 ∧
    constraint_ds Real.sqrt 3 (chain_x t) = Real.sqrt ((t - 2) * (t - 2)) := by
  refine ⟨?_, ?_, ?_⟩ <;>
    norm_num [constraint_ds, vec2_len, vec2_dot, vec2_sub, chain_x, prev_idx_lit, val_lit, idx_ne]

section

variable {F : Type} [Add F] [Sub F] [Mul F] [Div F] [Zero F] [One F] [NatCast F]
  [LT F] [DecidableRel (fun a b : F => a < b)]

end

/-- Real algebra of one projection with two movable bodies: the mass-weighted sum of a
coordinate is unchanged. -/
theorem weighted_sum_fixed (m0 m1 c a corr : ℝ) (h0 : 0 < m0) (h1 : 0 < m1) :
    m0 * (c - (a - c) * (inv_mass m0 * corr)) + m1 * (a + (a - c) * (inv_mass m1 * corr)) =
      m0 * c + m1 * a := by
  have hm0 : m0 ≠ 0 := ne_of_gt h0
  have hm1 : m1 ≠ 0 := ne_of_gt h1
  simp only [inv_mass, if_pos h0, if_pos h1]
  field_simp
  ring

theorem flatMap_block_length {α : Type} (f : Nat → List α) (c : Nat)
    (hlen : ∀ k, (f k).length = c) (n : Nat) : ((List.range n).flatMap f).length = c * n := by
  induction n with
  | zero => simp
  | succ n ih => simp [List.range_succ, List.flatMap_append, ih, hlen, Nat.mul_succ]

section

variable {F : Type} [Add F] [Sub F] [Mul F] [Div F] [Zero F] [One F] [NatCast F]
  [LT F] [DecidableRel (fun a b : F => a < b)]

theorem print_sim_nil (f : Int) (p : pendulum F) :
    print_sim f p [] =
      [out_line.row f (p.pos 0).x (p.pos 0).y (p.masses 0),
       out_line.row f (p.pos 1).x (p.pos 1).y (p.masses 1),
       out_line.row f (p.pos 2).x (p.pos 2).y (p.masses 2),
       out_line.row f (p.pos 3).x (p.pos 3).y (p.masses 3)] := by
  rw [print_sim_eq]; rfl

theorem iterate_masses (sqrtf : F → F) (g : F) (p : pendulum F) (n : Nat) :
    ((sim_update sqrtf g)^[n] p).masses = p.masses ∧
    ((sim_update sqrtf g)^[n] p).lengths = p.lengths := by
  induction n with
  | zero => exact ⟨rfl, rfl⟩
  | succ n ih =>
    rw [Function.iterate_succ_apply', sim_update_masses, sim_update_lengths]
    exact ih

end

section

variable {F : Type} [Add F] [Sub F] [Mul F] [Div F] [Zero F] [One F] [NatCast F]
  [LT F] [DecidableRel (fun a b : F => a < b)]

/-- Line `1 + N_DST * k + i` of the output is the row of body `i` in frame `k`. -/
theorem main_output_row (sqrtf sinf cosf : F → F) (g : F) (m l a : Fin N_SRC → F)
    (k : Nat) (hk : k ≤ 10 * FPS) (i : Fin N_DST) :
    (main_output sqrtf sinf cosf g m l a)[1 + N_DST * k + i.val]? =
      some (out_line.row (k : Int)
        (((sim_update sqrtf g)^[N_STEPS * k] (sim_init sinf cosf m l a)).pos i).x
        (((sim_update sqrtf g)^[N_STEPS * k] (sim_init sinf cosf m l a)).pos i).y
        (((sim_update sqrtf g)^[N_STEPS * k] (sim_init sinf cosf m l a)).masses i)) := by
  have hb := flatMap_block_getElem
    (fun k => print_sim (k : Int)
      ((sim_update sqrtf g)^[N_STEPS * k] (sim_init sinf cosf m l a)) [])
    N_DST (fun k => by simp only [print_sim_nil]; rfl) (10 * FPS + 1) k i.val
    (Nat.lt_succ_of_le hk) i.isLt
  simp only [print_sim_nil] at hb
  rw [main_output_shape, show 1 + N_DST * k + i.val = (N_DST * k + i.val) + 1 by ring,
    List.getElem?_cons_succ]
  simp only [print_sim_nil]
  rw [hb]
  rcases idx_all i with h | h | h | h <;> subst h <;> simp [val_lit]

end

/-- C3 (as stated) fails: with the source's angles `[pi/2, pi, pi]` body 2 is placed at
`y = -0.2 * cos pi = +0.2`, not at `-0.2`. -/
theorem concrete_scenario_counterexample :
    (sim_init Real.sin Real.cos masses lengths (angles Real.pi)).pos 2 ≠ ⟨0.2, -0.2⟩ := by
  rw [(sim_init_pos _ _ _ _ _).2.2.1]
  intro h
  have hy := congrArg vec2.y h
  simp [lengths, angles] at hy
  norm_num at hy

/-- C3 (amended): with lengths [0.2, 0.2, 0.2], masses [1.0, 0.5, 0.3] and angles
[pi/2, pi, pi] (exact `sin`, `cos`), `sim_init` gives `pos[0] = (0, 0)`, `pos[1] = (0.2, 0)`,
`pos[2] = (0.2, 0.2)` and `pos[3] = (0.2, 0.4)`; these, with the masses, are the rows of the
f = 0 block that follows the header, for every gravity. -/
theorem concrete_scenario_amended :
    (sim_init Real.sin Real.cos masses lengths (angles Real.pi)).pos 0 = ⟨0, 0⟩ ∧
    (sim_init Real.sin Real.cos masses lengths (angles Real.pi)).pos 1 = ⟨0.2, 0⟩ ∧
    (sim_init Real.sin Real.cos masses lengths (angles Real.pi)).pos 2 = ⟨0.2, 0.2⟩ ∧
    (sim_init Real.sin Real.cos masses lengths (angles Real.pi)).pos 3 = ⟨0.2, 0.4⟩ ∧
    ∀ g : ℝ, (main_output Real.sqrt Real.sin Real.cos g masses lengths (angles Real.pi)).take 5 =
      [out_line.text "f,x,y,m\n", out_line.row 0 0 0 0, out_line.row 0 0.2 0 1.0,
       out_line.row 0 0.2 0.2 0.5, out_line.row 0 0.2 0.4 0.3] := by
  have h0 : (sim_init Real.sin Real.cos masses lengths (angles Real.pi)).pos 0 = ⟨0, 0⟩ :=
    (sim_init_pos _ _ _ _ _).1
  have h1 : (sim_init Real.sin Real.cos masses lengths (angles Real.pi)).pos 1 = ⟨0.2, 0⟩ := by
    rw [(sim_init_pos _ _ _ _ _).2.1]
    simp [lengths, angles]
  have h2 : (sim_init Real.sin Real.cos masses lengths (angles Real.pi)).pos 2 = ⟨0.2, 0.2⟩ := by
    rw [(sim_init_pos _ _ _ _ _).2.2.1]
    simp [lengths, angles]
  have h3 : (sim_init Real.sin Real.cos masses lengths (angles Real.pi)).pos 3 = ⟨0.2, 0.4⟩ := by
    rw [(sim_init_pos _ _ _ _ _).2.2.2]
    simp [lengths, angles]
    norm_num
  refine ⟨h0, h1, h2, h3, ?_⟩
  intro g
  rw [main_output_shape, List.range_succ_eq_map, List.flatMap_cons]
  simp only [print_sim_nil, Nat.mul_zero, Function.iterate_zero, id_eq, h0, h1, h2, h3,
    sim_init_masses, Nat.cast_zero, List.take_succ_cons, List.cons_append, List.take_zero,
    List.nil_append]
  simp [masses]

section
variable {F : Type} [Add F] [Sub F] [Mul F] [Div F] [Zero F] [One F] [NatCast F]
  [LT F] [DecidableRel (fun a b : F => a < b)]

/-- C4: the driver writes the header `f,x,y,m` first and once, then the 1001 frame blocks
`k = 0 .. 1000` in ascending order, block `k` being what `print_sim k` writes for the
state after `k * N_STEPS` sub-steps; each block is the four rows of bodies 0, 1, 2, 3 in
that order, each with frame index, x, y and mass; so line `1 + 4 * k + i` is the row of
body `i` in frame `k`, and there are 1 + 4004 lines in all. -/
theorem output_stream_shape (sqrtf sinf cosf : F → F) (g : F) (m l a : Fin N_SRC → F) :
    main_output sqrtf sinf cosf g m l a =
      out_line.text "f,x,y,m\n" ::
        (List.range (10 * FPS + 1)).flatMap (fun k =>
          print_sim (k : Int)
            ((sim_update sqrtf g)^[N_STEPS * k] (sim_init sinf cosf m l a)) []) ∧
    (∀ (f : Int) (p : pendulum F), print_sim f p [] =
      [out_line.row f (p.pos 0).x (p.pos 0).y (p.masses 0),
       out_line.row f (p.pos 1).x (p.pos 1).y (p.masses 1),
       out_line.row f (p.pos 2).x (p.pos 2).y (p.masses 2),
       out_line.row f (p.pos 3).x (p.pos 3).y (p.masses 3)]) ∧
    (∀ (k : Nat) (i : Fin N_DST), k ≤ 10 * FPS →
      (main_output sqrtf sinf cosf g m l a)[1 + N_DST * k + i.val]? =
        some (out_line.row (k : Int)
          (((sim_update sqrtf g)^[N_STEPS * k] (sim_init sinf cosf m l a)).pos i).x
          (((sim_update sqrtf g)^[N_STEPS * k] (sim_init sinf cosf m l a)).pos i).y
          (((sim_update sqrtf g)^[N_STEPS * k] (sim_init sinf cosf m l a)).masses i))) ∧
    (main_output sqrtf sinf cosf g m l a).length = 1 + (1000 + 1) * 4 := by
  refine ⟨main_output_shape sqrtf sinf cosf g m l a, print_sim_nil,
    fun k i hk => main_output_row sqrtf sinf cosf g m l a k hk i, ?_⟩
  rw [main_output_shape, List.length_cons,
    flatMap_block_length _ 4 (fun k => by rw [print_sim_nil]; rfl)]
  norm_num

/-- Witness of C4: the last line of the output of the program as configured is the row of
body 3 in frame 1000. -/
theorem output_stream_shape_witness :
    (main_output Real.sqrt Real.sin Real.cos (gravity : ℝ) masses lengths
      (angles Real.pi))[1 + N_DST * 1000 + (3 : Fin N_DST).val]? =
      some (out_line.row ((1000 : Nat) : Int)
        (((sim_update Real.sqrt (gravity : ℝ))^[N_STEPS * 1000]
          (sim_init Real.sin Real.cos masses lengths (angles Real.pi))).pos 3).x
        (((sim_update Real.sqrt (gravity : ℝ))^[N_STEPS * 1000]
          (sim_init Real.sin Real.cos masses lengths (angles Real.pi))).pos 3).y
        (((sim_update Real.sqrt (gravity : ℝ))^[N_STEPS * 1000]
          (sim_init Real.sin Real.cos masses lengths (angles Real.pi))).masses 3)) :=
  (output_stream_shape Real.sqrt Real.sin Real.cos gravity masses lengths
    (angles Real.pi)).2.2.1 1000 3 (by decide)

end

/-- C5: for every content of the three source arrays (and any `sinf`, `cosf`), `sim_init`
gives body 0 mass 0, length 0 and zero position, previous position and velocity, and for
each source index `i` (body `i + 1`): `masses[i+1]` and `lengths[i+1]` are the source mass
and rod length, `pos[i+1] = pos[i] + (l * sin a, -(l * cos a))`, `prev_pos[i+1] = pos[i+1]`
and `vel[i+1] = (0, 0)`. -/
theorem sim_init_contract (sinf cosf : ℝ → ℝ) (m l a : Fin N_SRC → ℝ) :
    (sim_init sinf cosf m l a).masses 0 = 0 ∧ (sim_init sinf cosf m l a).lengths 0 = 0 ∧
    (sim_init sinf cosf m l a).pos 0 = ⟨0, 0⟩ ∧ (sim_init sinf cosf m l a).prev_pos 0 = ⟨0, 0⟩ ∧
    (sim_init sinf cosf m l a).vel 0 = ⟨0, 0⟩ ∧
    ∀ i : Fin N_SRC,
      (sim_init sinf cosf m l a).masses i.succ = m i ∧
      (sim_init sinf cosf m l a).lengths i.succ = l i ∧
      ((sim_init sinf cosf m l a).pos i.succ).x =
        ((sim_init sinf cosf m l a).pos (prev_idx i.succ)).x + l i * sinf (a i) ∧
      ((sim_init sinf cosf m l a).pos i.succ).y =
        ((sim_init sinf cosf m l a).pos (prev_idx i.succ)).y + -(l i * cosf (a i)) ∧
      (sim_init sinf cosf m l a).prev_pos i.succ = (sim_init sinf cosf m l a).pos i.succ ∧
      (sim_init sinf cosf m l a).vel i.succ = ⟨0, 0⟩ := by
  refine ⟨(sim_init_masses _ _ _ _ _).1, (sim_init_lengths _ _ _ _ _).1,
    (sim_init_pos _ _ _ _ _).1, ?_, sim_init_vel _ _ _ _ _ _, ?_⟩
  · rw [sim_init_prev_pos]; exact (sim_init_pos _ _ _ _ _).1
  · intro i
    refine ⟨?_, ?_, ?_, ?_, by rw [sim_init_prev_pos], sim_init_vel _ _ _ _ _ _⟩
    · rcases succ_cases i with h | h | h <;> rw [h.2, h.1] <;> simp [sim_init_masses]
    · rcases succ_cases i with h | h | h <;> rw [h.2, h.1] <;> simp [sim_init_lengths]
    · rcases succ_cases i with h | h | h <;> rw [h.2, h.1] <;>
        simp [sim_init_pos, prev_idx_lit]
    · rcases succ_cases i with h | h | h <;> rw [h.2, h.1] <;>
        simp [sim_init_pos, prev_idx_lit, sub_eq_add_neg]

section
variable {F : Type} [Add F] [Sub F] [Mul F] [Div F] [Zero F] [One F] [NatCast F]
  [LT F] [DecidableRel (fun a b : F => a < b)]

/-- C6: `sim_update` writes neither `masses` nor `lengths` (nor `prev_pos[0]`, `vel[0]`);
so after any number `n` of sub-steps from `sim_init` with positive source masses and rod
lengths, `masses[i]` and `lengths[i]`, `i = 1..3`, are still the source values and
positive. -/
theorem masses_lengths_fixed :
    (∀ (sqrtf : F → F) (g : F) (p : pendulum F),
      (sim_update sqrtf g p).masses = p.masses ∧ (sim_update sqrtf g p).lengths = p.lengths ∧
      (sim_update sqrtf g p).prev_pos 0 = p.prev_pos 0 ∧
      (sim_update sqrtf g p).vel 0 = p.vel 0) ∧
    (∀ (sqrtf sinf cosf : F → F) (g : F) (m l a : Fin N_SRC → F) (n : Nat),
      (∀ i, 0 < m i) → (∀ i, 0 < l i) → ∀ i : Fin N_SRC,
        ((sim_update sqrtf g)^[n] (sim_init sinf cosf m l a)).masses i.succ = m i ∧
        0 < ((sim_update sqrtf g)^[n] (sim_init sinf cosf m l a)).masses i.succ ∧
        ((sim_update sqrtf g)^[n] (sim_init sinf cosf m l a)).lengths i.succ = l i ∧
        0 < ((sim_update sqrtf g)^[n] (sim_init sinf cosf m l a)).lengths i.succ) := by
  constructor
  · intro sqrtf g p
    refine ⟨sim_update_masses sqrtf g p, sim_update_lengths sqrtf g p, ?_,
      sim_update_vel_zero sqrtf g p⟩
    rw [sim_update_prev_pos]
    simp [idx_ne]
  · intro sqrtf sinf cosf g m l a n hm hl i
    have hmi : ((sim_update sqrtf g)^[n] (sim_init sinf cosf m l a)).masses i.succ = m i := by
      rw [(iterate_masses sqrtf g _ n).1]
      rcases succ_cases i with h | h | h <;> rw [h.2, h.1] <;> simp [sim_init_masses]
    have hli : ((sim_update sqrtf g)^[n] (sim_init sinf cosf m l a)).lengths i.succ = l i := by
      rw [(iterate_masses sqrtf g _ n).2]
      rcases succ_cases i with h | h | h <;> rw [h.2, h.1] <;> simp [sim_init_lengths]
    exact ⟨hmi, by rw [hmi]; exact hm i, hli, by rw [hli]; exact hl i⟩
end

/-- Witness of C6: three unit masses and unit rods, real arithmetic, seven sub-steps. -/
theorem masses_lengths_fixed_witness :
    ((sim_update Real.sqrt (0 : ℝ))^[7]
      (sim_init Real.sin Real.cos (fun _ => 1) (fun _ => 1) (fun _ => 0))).masses
        (Fin.succ 2) = 1 :=
  (masses_lengths_fixed.2 Real.sqrt Real.sin Real.cos 0 (fun _ => 1) (fun _ => 1) (fun _ => 0) 7
    (fun _ => one_pos) (fun _ => one_pos) 2).1

section
variable {F : Type} [Add F] [Sub F] [Mul F] [Div F] [Zero F] [One F] [NatCast F]
  [LT F] [DecidableRel (fun a b : F => a < b)]

/-- C7: after one `sim_update`, for every movable index (`i.succ`, i.e. 1, 2, 3),
`prev_pos[i]` is the position before the call and `vel[i]` is the final position minus
`prev_pos[i]`, divided componentwise by `SDT`; in every arithmetic. -/
theorem velocity_reconstruction (sqrtf : F → F) (g : F) (p : pendulum F) (i : Fin N_SRC) :
    (sim_update sqrtf g p).prev_pos i.succ = p.pos i.succ ∧
    (sim_update sqrtf g p).vel i.succ =
      vec2_divs (vec2_sub ((sim_update sqrtf g p).pos i.succ)
        ((sim_update sqrtf g p).prev_pos i.succ)) SDT ∧
    ((sim_update sqrtf g p).vel i.succ).x =
      (((sim_update sqrtf g p).pos i.succ).x - (p.pos i.succ).x) / SDT ∧
    ((sim_update sqrtf g p).vel i.succ).y =
      (((sim_update sqrtf g p).pos i.succ).y - (p.pos i.succ).y) / SDT := by
  have hp : (sim_update sqrtf g p).prev_pos i.succ = p.pos i.succ := by
    rw [sim_update_prev_pos]
    rcases succ_cases i with h | h | h <;> rw [h.2] <;> simp [idx_ne]
  refine ⟨hp, sim_update_vel sqrtf g p i, ?_, ?_⟩
  · rw [sim_update_vel, hp]; rfl
  · rw [sim_update_vel, hp]; rfl
end

/-- C9 (as stated) fails: in the chain whose bodies 2 and 3 coincide (both movable, unit
masses) constraint 3 divides by `ds * (w0 + w1) = 0`; the correction is undefined and so
is the mass-weighted sum afterwards, which was the number 4 before. -/
theorem weighted_centre_counterexample :
    (0 : Chk ℝ) < (chain_x (2 : Chk ℝ)).masses 2 ∧ (0 : Chk ℝ) < (chain_x (2 : Chk ℝ)).masses 3 ∧
    (chain_x (2 : Chk ℝ)).masses 2 * ((chain_x (2 : Chk ℝ)).pos 2).x +
      (chain_x (2 : Chk ℝ)).masses 3 * ((chain_x (2 : Chk ℝ)).pos 3).x = fin 4 ∧
    (constraint_body (Chk.sqrt Real.sqrt) 3 (chain_x (2 : Chk ℝ))).masses 2 *
        ((constraint_body (Chk.sqrt Real.sqrt) 3 (chain_x (2 : Chk ℝ))).pos 2).x +
      (constraint_body (Chk.sqrt Real.sqrt) 3 (chain_x (2 : Chk ℝ))).masses 3 *
        ((constraint_body (Chk.sqrt Real.sqrt) 3 (chain_x (2 : Chk ℝ))).pos 3).x = nan := by
  have h2 : ((2 : Chk ℝ)) = fin 2 := by
    rw [← Nat.cast_ofNat, Chk.natCast_eq]; norm_num
  refine ⟨?_, ?_, ?_, ?_⟩
  · simp [chain_x, idx_ne, Chk.zero_eq, Chk.one_eq, Chk.fin_lt_fin]
  · simp [chain_x, idx_ne, Chk.zero_eq, Chk.one_eq, Chk.fin_lt_fin]
  · simp only [chain_x, idx_ne, if_false, if_true, val_lit, h2, Chk.one_eq, Chk.natCast_eq,
      Chk.fin_mul_fin, Chk.fin_add_fin]
    norm_num
  · rw [constraint_body_pos _ 3 idx_ne.2.2.2.2.2.2.2.2.2.1]
    simp only [prev_idx_lit, Function.update_same, Function.update_noteq idx_ne.2.2.2.2.2.2.2.2.1,
      constraint_body_masses, constraint_divisor, constraint_ds, vec2_len, vec2_dot, vec2_sub,
      vec2_adds, vec2_subs]
    simp only [chain_x, idx_ne, if_false, if_true, val_lit, h2, Chk.one_eq, Chk.zero_eq,
      Chk.natCast_eq, Chk.fin_mul_fin, Chk.fin_add_fin, Chk.fin_sub_fin, inv_mass_chk]
    norm_num [Chk.sqrt_fin, Chk.fin_mul_fin, Chk.fin_div_fin, Chk.mul_nan, Chk.add_nan,
      Chk.nan_add, Chk.sub_nan, Chk.fin_sub_fin, Chk.fin_add_fin]

/-- C9 (amended): for every constraint step `i = 1..3` in which both bodies are movable
(positive masses) and their current distance is non-zero, the step is defined and each
coordinate of `masses[i-1] * pos[i-1] + masses[i] * pos[i]` is the same defined number
after the step as before. -/
theorem weighted_centre_preserved (r : pendulum ℝ) (i : Fin N_DST) (hi : i ≠ 0)
    (h0 : 0 < r.masses (prev_idx i)) (h1 : 0 < r.masses i)
    (hd : constraint_ds Real.sqrt i r ≠ 0) :
    (constraint_body (Chk.sqrt Real.sqrt) i r.chk).masses (prev_idx i) *
        ((constraint_body (Chk.sqrt Real.sqrt) i r.chk).pos (prev_idx i)).x +
      (constraint_body (Chk.sqrt Real.sqrt) i r.chk).masses i *
        ((constraint_body (Chk.sqrt Real.sqrt) i r.chk).pos i).x =
      fin (r.masses (prev_idx i) * (r.pos (prev_idx i)).x + r.masses i * (r.pos i).x) ∧
    (constraint_body (Chk.sqrt Real.sqrt) i r.chk).masses (prev_idx i) *
        ((constraint_body (Chk.sqrt Real.sqrt) i r.chk).pos (prev_idx i)).y +
      (constraint_body (Chk.sqrt Real.sqrt) i r.chk).masses i *
        ((constraint_body (Chk.sqrt Real.sqrt) i r.chk).pos i).y =
      fin (r.masses (prev_idx i) * (r.pos (prev_idx i)).y + r.masses i * (r.pos i).y) := by
  rw [chk_constraint_body i hi r (divisor_ne_zero r i h1 hd)]
  have hm : ∀ k, (constraint_body Real.sqrt i r).chk.masses k = fin (r.masses k) := fun _ => rfl
  simp only [hm, chk_pos, Chk.fin_mul_fin, Chk.fin_add_fin, constraint_body_pos _ i hi,
    Function.update_same, Function.update_noteq (prev_idx_ne i hi), vec2_subs, vec2_adds,
    vec2_sub]
  exact ⟨congrArg fin (weighted_sum_fixed _ _ _ _ _ h0 h1),
    congrArg fin (weighted_sum_fixed _ _ _ _ _ h0 h1)⟩

/-- Witness of C9: constraint 2 of the straight unit chain. -/
theorem weighted_centre_preserved_witness :
    (constraint_body (Chk.sqrt Real.sqrt) 2 (chain_x (3 : ℝ)).chk).masses (prev_idx 2) *
        ((constraint_body (Chk.sqrt Real.sqrt) 2 (chain_x (3 : ℝ)).chk).pos (prev_idx 2)).x +
      (constraint_body (Chk.sqrt Real.sqrt) 2 (chain_x (3 : ℝ)).chk).masses 2 *
        ((constraint_body (Chk.sqrt Real.sqrt) 2 (chain_x (3 : ℝ)).chk).pos 2).x =
      fin ((chain_x (3 : ℝ)).masses (prev_idx 2) * ((chain_x (3 : ℝ)).pos (prev_idx 2)).x +
        (chain_x (3 : ℝ)).masses 2 * ((chain_x (3 : ℝ)).pos 2).x) :=
  (weighted_centre_preserved (chain_x 3) 2 idx_ne.2.2.2.2.2.2.1
    (by simp [chain_x, idx_ne, prev_idx_lit]) (by simp [chain_x, idx_ne])
    (by rw [(chain_ds 3).2.1]; exact one_ne_zero)).1

end Pendulum
